import Mathlib

/-
Verification of the batch-download engine of `music_rip`
(`youtube_audio_downloader`): a shallow embedding in Lean 4 of
`cli/batch.py`, `utils/validators.py` and `core/downloader.py`,
with theorems settling the specification's claims about it.

Modelling conventions:
- Python `str` values are Lean `String`s; Python string operations
  (`strip`, `startswith`) are defined below on the character list
  (`String.data`), which is exactly their Python semantics.
- The external collaborator (`yt_dlp`) is abstracted: each loop
  iteration is given an `Outcome` describing what the collaborator
  call did at that position (returned success, returned failure,
  raised an exception with a given message, or a KeyboardInterrupt
  surfaced inside the loop body).  Timestamps (`datetime.now()`)
  are an oracle `ts : Nat → String` indexed by the loop position.
- The resume file on disk is modelled as `Option ResumeData`
  (the JSON object written by `save_resume_data`); JSON
  serialisation of string lists and string-keyed objects is
  faithful, so encode/decode is the identity on this structure.
-/

namespace MusicRip

/-- Python `str.strip()`: remove leading and trailing whitespace
characters from the character sequence. -/
def pyStrip (s : String) : String :=
  ⟨((s.data.dropWhile Char.isWhitespace).reverse.dropWhile Char.isWhitespace).reverse⟩

/-- Python `s.startswith(p)`: the characters of `p` are an initial
segment of the characters of `s`. -/
def pyStartsWith (s p : String) : Bool :=
  p.data.isPrefixOf s.data

/-- `utils/validators.py`, `validate_url`:
`url.startswith(('http://', 'https://', 'www.'))`. -/
def validate_url (url : String) : Bool :=
  pyStartsWith url "http://" || pyStartsWith url "https://" || pyStartsWith url "www."

/-- One entry of the `failed` map of `BatchProcessor`:
`{'line': ..., 'error': ..., 'timestamp': ...}`. -/
structure FailInfo where
  line : Nat
  error : String
  timestamp : String
deriving Repr, DecidableEq

/-- Python `dict` update `m[k] = v`: replace the value in place when
the key is present (position kept), otherwise append the pair. -/
def dictInsert (m : List (String × FailInfo)) (k : String) (v : FailInfo) :
    List (String × FailInfo) :=
  if k ∈ m.map Prod.fst then
    m.map (fun p => if p.1 = k then (k, v) else p)
  else
    m ++ [(k, v)]

/-- Python `set.add`: insert when absent, keep the set otherwise
(represented as a duplicate-free list). -/
def setAdd (s : List String) (x : String) : List String :=
  if x ∈ s then s else s ++ [x]

/-- The mutable state of `BatchProcessor`: `processed_urls` (a set of
URL strings) and `failed_urls` (a dict from URL to `FailInfo`). -/
structure BatchState where
  processed : List String
  failed : List (String × FailInfo)
deriving Repr, DecidableEq

/-- The JSON object written to the resume file by `save_resume_data`:
fields `processed`, `failed` and `last_updated`. -/
structure ResumeData where
  processed : List String
  failed : List (String × FailInfo)
  last_updated : String
deriving Repr, DecidableEq

/-- `BatchProcessor.save_resume_data`: dump the current state, with
`last_updated = datetime.now().isoformat()`, to the resume file. -/
def save_resume_data (st : BatchState) (now : String) : ResumeData :=
  { processed := st.processed, failed := st.failed, last_updated := now }

/-- `BatchProcessor.load_resume_data`: when the resume file exists and
parses, `processed = set(data.get('processed', []))` and
`failed = data.get('failed', {})`; otherwise the state stays empty. -/
def load_resume_data : Option ResumeData → BatchState
  | none => { processed := [], failed := [] }
  | some d => { processed := d.processed.dedup, failed := d.failed }

/-- Result of `read_urls_from_file`: the accepted `(line_number, url)`
pairs, and the lines reported and skipped as invalid URLs (with their
line numbers). -/
structure ReadResult where
  urls : List (Nat × String)
  skipped : List (Nat × String)
deriving Repr, DecidableEq

/-- The loop body of `BatchProcessor.read_urls_from_file`, with `n` the
1-based number of the first line of the remaining input: strip each
line, skip empty lines and lines starting with `'#'`, keep lines that
pass `validate_url`, report the rest. -/
def readUrlsFrom (n : Nat) : List String → ReadResult
  | [] => { urls := [], skipped := [] }
  | raw :: rest =>
    let line := pyStrip raw
    if line = "" ∨ pyStartsWith line "#" then
      readUrlsFrom (n + 1) rest
    else if validate_url line then
      let r := readUrlsFrom (n + 1) rest
      { urls := (n, line) :: r.urls, skipped := r.skipped }
    else
      let r := readUrlsFrom (n + 1) rest
      { urls := r.urls, skipped := (n, line) :: r.skipped }

/-- `BatchProcessor.read_urls_from_file` on the list of lines of the
input file (line numbers start at 1, per `enumerate(f, 1)`). -/
def read_urls_from_file (lines : List String) : ReadResult :=
  readUrlsFrom 1 lines

/-- What one iteration of the `process_urls` loop body observes of the
collaborator call for a non-skipped entry: `download_audio` returned
`True`; it returned `False`; the body raised an exception with message
`msg` (caught by `except Exception`); or a `KeyboardInterrupt` surfaced
from the body (caught by `except KeyboardInterrupt`). -/
inductive Outcome where
  | success
  | failure
  | raiseExc (msg : String)
  | interrupt
deriving Repr, DecidableEq

/-- The error text `process_urls` records for a failing outcome:
`'Download failed'` when the collaborator returned `False`, `str(e)`
when the body raised `e`. -/
def Outcome.errText : Outcome → String
  | .failure => "Download failed"
  | .raiseExc msg => msg
  | _ => ""

/-- The complete result of a `process_urls` run: the returned
`(success_count, failed_count)` pair, the final in-memory state, the
resume file on disk after the run, the 1-based loop index reported by
the `KeyboardInterrupt` handler when the loop was interrupted (`none`
for a completed run), and the list of loop indices at which the
collaborator (`download_audio`) was invoked and ran to completion. -/
structure ProcResult where
  success_count : Nat
  failed_count : Nat
  state : BatchState
  disk : Option ResumeData
  interrupted : Option Nat
  calls : List Nat
deriving Repr, DecidableEq

/-- The loop of `BatchProcessor.process_urls` from loop index `idx`
(1-based, per `enumerate(urls, 1)`) with current state `st`, resume
file contents `disk`, running tallies `sc`/`fc` and collaborator-call
log `calls`.  Branches, in source order: resume-mode skip of
already-processed URLs (counted as success); collaborator success
(mark processed); collaborator failure (record in `failed`);
`KeyboardInterrupt` (save when in resume mode, report `idx`, break);
any other exception (record in `failed`).  In resume mode the state
is saved to disk after every entry. -/
def processUrlsFrom (oc : Nat → Outcome) (ts : Nat → String) (resume : Bool)
    (idx : Nat) (st : BatchState) (disk : Option ResumeData)
    (sc fc : Nat) (calls : List Nat) : List (Nat × String) → ProcResult
  | [] =>
    { success_count := sc, failed_count := fc, state := st, disk := disk,
      interrupted := none, calls := calls }
  | (ln, url) :: rest =>
    if resume = true ∧ url ∈ st.processed then
      processUrlsFrom oc ts resume (idx + 1) st disk (sc + 1) fc calls rest
    else
      match oc idx with
      | .success =>
        let st' : BatchState := { st with processed := setAdd st.processed url }
        let disk' := if resume = true then some (save_resume_data st' (ts idx)) else disk
        processUrlsFrom oc ts resume (idx + 1) st' disk' (sc + 1) fc (calls ++ [idx]) rest
      | .failure =>
        let st' : BatchState :=
          { st with failed := dictInsert st.failed url ⟨ln, "Download failed", ts idx⟩ }
        let disk' := if resume = true then some (save_resume_data st' (ts idx)) else disk
        processUrlsFrom oc ts resume (idx + 1) st' disk' sc (fc + 1) (calls ++ [idx]) rest
      | .raiseExc msg =>
        let st' : BatchState :=
          { st with failed := dictInsert st.failed url ⟨ln, msg, ts idx⟩ }
        let disk' := if resume = true then some (save_resume_data st' (ts idx)) else disk
        processUrlsFrom oc ts resume (idx + 1) st' disk' sc (fc + 1) (calls ++ [idx]) rest
      | .interrupt =>
        let disk' := if resume = true then some (save_resume_data st (ts idx)) else disk
        { success_count := sc, failed_count := fc, state := st, disk := disk',
          interrupted := some idx, calls := calls }

/-- `BatchProcessor.process_urls`: run the loop over the whole URL list
with zero tallies, starting at loop index 1. -/
def process_urls (oc : Nat → Outcome) (ts : Nat → String) (resume : Bool)
    (st : BatchState) (disk : Option ResumeData)
    (urls : List (Nat × String)) : ProcResult :=
  processUrlsFrom oc ts resume 1 st disk 0 0 [] urls

/-- What the `yt_dlp` calls inside `YouTubeDownloader.download` do for
one URL: run to completion, raise `yt_dlp.utils.DownloadError`, raise
`KeyboardInterrupt`, or raise some other exception. -/
inductive FetchEvent where
  | ok
  | downloadError (msg : String)
  | keyboardInterrupt
  | otherExc (msg : String)
deriving Repr, DecidableEq

/-- `core/downloader.py`, `YouTubeDownloader.download` (and the
`download_audio` wrapper the batch loop calls): the `try` body returns
`True` on completion; the three `except` clauses — `DownloadError`,
`KeyboardInterrupt`, and `Exception` — each print a message and return
`False`.  No exception from the fetch propagates to the caller. -/
def download_audio (ev : FetchEvent) : Bool :=
  match ev with
  | .ok => true
  | .downloadError _ => false
  | .keyboardInterrupt => false
  | .otherExc _ => false

/-- The `Outcome` the `process_urls` loop body observes when the
collaborator call itself runs and `download_audio` returns its boolean
(`if success: ... else: ...`). -/
def outcomeOfFetch (ev : FetchEvent) : Outcome :=
  if download_audio ev then .success else .failure

/-- The observable result of `main` in `cli/batch.py`: the process exit
code, the collaborator-call log, and the `process_urls` result when the
loop was reached. -/
structure MainOutcome where
  exit_code : Nat
  calls : List Nat
  result : Option ProcResult
deriving Repr, DecidableEq

/-- `main` of `cli/batch.py`, the parts relevant to batch processing:
construct the processor (loading the resume file), honour
`--clear-resume` (delete the file and empty the in-memory state), read
the URL list, exit with code 1 when no valid URL was found (before any
collaborator call), otherwise run `process_urls` and exit 0 when
`failed_count == 0`, 1 otherwise. -/
def mainModel (lines : List String) (disk0 : Option ResumeData)
    (clear_resume resume : Bool) (oc : Nat → Outcome) (ts : Nat → String) :
    MainOutcome :=
  let st0 := load_resume_data disk0
  let st := if clear_resume = true ∧ disk0.isSome = true then
    ({ processed := [], failed := [] } : BatchState) else st0
  let disk := if clear_resume = true ∧ disk0.isSome = true then none else disk0
  let urls := (read_urls_from_file lines).urls
  if urls = [] then
    { exit_code := 1, calls := [], result := none }
  else
    let r := process_urls oc ts resume st disk urls
    { exit_code := if r.failed_count = 0 then 0 else 1, calls := r.calls,
      result := some r }

/-- Modelled from the spec's words, for comparison with
`read_urls_from_file`: the accepted entries are exactly the nonblank,
non-comment lines whose stripped text passes URL validation, paired
with their original 1-based line numbers, in original order. -/
def readUrlsSpec (lines : List String) : List (Nat × String) :=
  (((lines.enumFrom 1).map (fun p => (p.1, pyStrip p.2))).filter
    (fun p => !(p.2 == "" || pyStartsWith p.2 "#") && validate_url p.2))

/-- Modelled from the spec's words, for comparison with
`read_urls_from_file`: the reported-and-skipped entries are exactly the
nonblank, non-comment lines whose stripped text fails URL validation,
with their original 1-based line numbers. -/
def skippedSpec (lines : List String) : List (Nat × String) :=
  (((lines.enumFrom 1).map (fun p => (p.1, pyStrip p.2))).filter
    (fun p => !(p.2 == "" || pyStartsWith p.2 "#") && !validate_url p.2))

lemma readUrlsFrom_eq_spec (lines : List String) : ∀ n : Nat,
    (readUrlsFrom n lines).urls
      = (((lines.enumFrom n).map (fun p => (p.1, pyStrip p.2))).filter
          (fun p => !(p.2 == "" || pyStartsWith p.2 "#") && validate_url p.2))
    ∧ (readUrlsFrom n lines).skipped
      = (((lines.enumFrom n).map (fun p => (p.1, pyStrip p.2))).filter
          (fun p => !(p.2 == "" || pyStartsWith p.2 "#") && !validate_url p.2)) := by
  induction lines with
  | nil => intro n; simp [readUrlsFrom, List.enumFrom]
  | cons raw rest ih =>
    intro n
    by_cases h1 : pyStrip raw = "" ∨ pyStartsWith (pyStrip raw) "#" = true
    · have hb : (pyStrip raw == "" || pyStartsWith (pyStrip raw) "#") = true := by
        rcases h1 with h | h
        · simp [h]
        · simp [h]
      simp only [readUrlsFrom, if_pos h1, List.enumFrom, List.map_cons,
        List.filter_cons, hb, Bool.not_true, Bool.false_and, if_neg Bool.false_ne_true]
      exact ih (n + 1)
    · have hb : (pyStrip raw == "" || pyStartsWith (pyStrip raw) "#") = false := by
        push_neg at h1
        simp [h1.1, h1.2]
      by_cases h2 : validate_url (pyStrip raw) = true
      · simp only [readUrlsFrom, if_neg h1, if_pos h2, List.enumFrom, List.map_cons,
          List.filter_cons, hb, Bool.not_false, Bool.true_and, h2, Bool.not_true,
          if_true, if_neg Bool.false_ne_true]
        exact ⟨by rw [(ih (n + 1)).1], (ih (n + 1)).2⟩
      · have h2' : validate_url (pyStrip raw) = false := by
          simpa using h2
        simp only [readUrlsFrom, if_neg h1, if_neg h2, List.enumFrom, List.map_cons,
          List.filter_cons, hb, Bool.not_false, Bool.true_and, h2', Bool.not_false,
          if_true, if_neg Bool.false_ne_true]
        exact ⟨(ih (n + 1)).1, by rw [(ih (n + 1)).2]⟩

/-- C2: for every input, `read_urls_from_file` returns exactly the
`(line_number, url)` pairs for the nonblank, non-comment lines whose
stripped text passes URL validation, in original order with their
original 1-based line numbers, and every line skipped as an invalid
URL is reported with its original line number. -/
theorem c2_read_urls_exact (lines : List String) :
    (read_urls_from_file lines).urls = readUrlsSpec lines
    ∧ (read_urls_from_file lines).skipped = skippedSpec lines :=
  readUrlsFrom_eq_spec lines 1

/-- C6: saving the resume state and loading it back yields an
equivalent processed set (same members) and an equal failed map. -/
theorem c6_resume_roundtrip (st : BatchState) (now : String) :
    (∀ u : String,
      u ∈ (load_resume_data (some (save_resume_data st now))).processed
        ↔ u ∈ st.processed)
    ∧ (load_resume_data (some (save_resume_data st now))).failed = st.failed := by
  constructor
  · intro u
    simp [load_resume_data, save_resume_data, List.mem_dedup]
  · rfl

lemma pyStartsWith_iff_append (s p : String) :
    pyStartsWith s p = true ↔ ∃ t : String, s = p ++ t := by
  unfold pyStartsWith
  rw [List.isPrefixOf_iff_prefix]
  constructor
  · rintro ⟨u, hu⟩
    refine ⟨⟨u⟩, ?_⟩
    apply String.ext
    rw [String.data_append]
    exact hu.symm
  · rintro ⟨t, rfl⟩
    rw [String.data_append]
    exact List.prefix_append _ _

/-- C8: `validate_url` accepts exactly the strings that start with one
of `http://`, `https://`, `www.`; a `www.` line (no URL scheme) is
accepted by the reader and passed to the collaborator, while a line
with another scheme such as `ftp://` is rejected and skipped. -/
theorem c8_validate_url_exact :
    (∀ s : String, validate_url s = true ↔
      ∃ t : String, s = "http://" ++ t ∨ s = "https://" ++ t ∨ s = "www." ++ t)
    ∧ (read_urls_from_file ["www.youtube.com/watch", "ftp://host/file"]).urls
        = [(1, "www.youtube.com/watch")]
    ∧ (read_urls_from_file ["www.youtube.com/watch", "ftp://host/file"]).skipped
        = [(2, "ftp://host/file")]
    ∧ (process_urls (fun _ => Outcome.success) (fun _ => "") false
        { processed := [], failed := [] } none [(1, "www.youtube.com/watch")]).calls
        = [1] := by
  refine ⟨?_, by rfl, by rfl, by rfl⟩
  intro s
  simp only [validate_url, Bool.or_eq_true, pyStartsWith_iff_append]
  constructor
  · rintro ((⟨t, ht⟩ | ⟨t, ht⟩) | ⟨t, ht⟩)
    · exact ⟨t, Or.inl ht⟩
    · exact ⟨t, Or.inr (Or.inl ht)⟩
    · exact ⟨t, Or.inr (Or.inr ht)⟩
  · rintro ⟨t, h | h | h⟩
    · exact Or.inl (Or.inl ⟨t, h⟩)
    · exact Or.inl (Or.inr ⟨t, h⟩)
    · exact Or.inr ⟨t, h⟩

lemma counts_complete (oc : Nat → Outcome) (ts : Nat → String) (resume : Bool) :
    ∀ (urls : List (Nat × String)) (idx : Nat) (st : BatchState)
      (disk : Option ResumeData) (sc fc : Nat) (calls : List Nat),
      (processUrlsFrom oc ts resume idx st disk sc fc calls urls).interrupted = none →
      (processUrlsFrom oc ts resume idx st disk sc fc calls urls).success_count
        + (processUrlsFrom oc ts resume idx st disk sc fc calls urls).failed_count
        = sc + fc + urls.length := by
  intro urls
  induction urls with
  | nil => intro idx st disk sc fc calls _; simp [processUrlsFrom]
  | cons p rest ih =>
    intro idx st disk sc fc calls h
    obtain ⟨ln, url⟩ := p
    simp only [processUrlsFrom] at h ⊢
    by_cases hskip : resume = true ∧ url ∈ st.processed
    · rw [if_pos hskip] at h ⊢
      have := ih (idx + 1) st disk (sc + 1) fc calls h
      simp only [List.length_cons]
      omega
    · rw [if_neg hskip] at h ⊢
      cases hoc : oc idx <;> rw [hoc] at h <;> dsimp only at h ⊢ <;>
        simp only [List.length_cons]
      · have := ih (idx + 1) _ _ (sc + 1) fc (calls ++ [idx]) h
        omega
      · have := ih (idx + 1) _ _ sc (fc + 1) (calls ++ [idx]) h
        omega
      · have := ih (idx + 1) _ _ sc (fc + 1) (calls ++ [idx]) h
        omega
      · simp at h

/-- C1 counterexample: a resume-mode run in which the single URL is
skipped as already processed makes no collaborator call (the attempted
set is empty), yet the returned counts sum to 1, not 0: `process_urls`
counts resume-skipped entries as successes. -/
theorem c1_counterexample :
    (process_urls (fun _ => Outcome.failure) (fun _ => "") true
        { processed := ["https://a"], failed := [] } none
        [(1, "https://a")]).interrupted = none
    ∧ (process_urls (fun _ => Outcome.failure) (fun _ => "") true
        { processed := ["https://a"], failed := [] } none
        [(1, "https://a")]).calls = []
    ∧ ¬((process_urls (fun _ => Outcome.failure) (fun _ => "") true
          { processed := ["https://a"], failed := [] } none
          [(1, "https://a")]).success_count
        + (process_urls (fun _ => Outcome.failure) (fun _ => "") true
            { processed := ["https://a"], failed := [] } none
            [(1, "https://a")]).failed_count
        = (process_urls (fun _ => Outcome.failure) (fun _ => "") true
            { processed := ["https://a"], failed := [] } none
            [(1, "https://a")]).calls.length) := by
  refine ⟨rfl, rfl, by decide⟩

/-- C1 (amended): after any complete (non-interrupted) run,
`success_count + failed_count` equals the total number of entries of
the URL list — resume-skipped entries included, since the skip branch
counts them as successes — not the number of attempted entries. -/
theorem c1_amended (oc : Nat → Outcome) (ts : Nat → String) (resume : Bool)
    (st : BatchState) (disk : Option ResumeData) (urls : List (Nat × String))
    (h : (process_urls oc ts resume st disk urls).interrupted = none) :
    (process_urls oc ts resume st disk urls).success_count
      + (process_urls oc ts resume st disk urls).failed_count = urls.length := by
  have := counts_complete oc ts resume urls 1 st disk 0 0 [] h
  simpa using this

/-- Witness for `c1_amended` at a concrete one-entry run. -/
theorem c1_witness :
    (process_urls (fun _ => Outcome.success) (fun _ => "") false
        { processed := [], failed := [] } none [(1, "https://a")]).interrupted = none
    ∧ (process_urls (fun _ => Outcome.success) (fun _ => "") false
        { processed := [], failed := [] } none [(1, "https://a")]).success_count
      + (process_urls (fun _ => Outcome.success) (fun _ => "") false
          { processed := [], failed := [] } none [(1, "https://a")]).failed_count
      = 1 :=
  ⟨rfl, c1_amended (fun _ => Outcome.success) (fun _ => "") false
    { processed := [], failed := [] } none [(1, "https://a")] rfl⟩

lemma map_fst_update (m : List (String × FailInfo)) (k : String) (v : FailInfo) :
    (m.map (fun p => if p.1 = k then (k, v) else p)).map Prod.fst
      = m.map Prod.fst := by
  induction m with
  | nil => rfl
  | cons p rest ih =>
    by_cases h : p.1 = k
    · simp [h, ih]
    · simp [h, ih]

lemma mem_keys_dictInsert (m : List (String × FailInfo)) (k : String) (v : FailInfo)
    (k' : String) (h : k' ∈ m.map Prod.fst) :
    k' ∈ (dictInsert m k v).map Prod.fst := by
  unfold dictInsert
  by_cases hk : k ∈ m.map Prod.fst
  · rw [if_pos hk, map_fst_update]
    exact h
  · rw [if_neg hk]
    simp only [List.map_append, List.mem_append]
    exact Or.inl h

lemma self_mem_keys_dictInsert (m : List (String × FailInfo)) (k : String)
    (v : FailInfo) : k ∈ (dictInsert m k v).map Prod.fst := by
  unfold dictInsert
  by_cases hk : k ∈ m.map Prod.fst
  · rw [if_pos hk, map_fst_update]
    exact hk
  · rw [if_neg hk]
    simp

lemma failed_keys_mono (oc : Nat → Outcome) (ts : Nat → String) (resume : Bool) :
    ∀ (urls : List (Nat × String)) (idx : Nat) (st : BatchState)
      (disk : Option ResumeData) (sc fc : Nat) (calls : List Nat) (k : String),
      k ∈ st.failed.map Prod.fst →
      k ∈ (processUrlsFrom oc ts resume idx st disk sc fc calls
            urls).state.failed.map Prod.fst := by
  intro urls
  induction urls with
  | nil => intro idx st disk sc fc calls k hk; simpa [processUrlsFrom] using hk
  | cons p rest ih =>
    intro idx st disk sc fc calls k hk
    obtain ⟨ln, url⟩ := p
    simp only [processUrlsFrom]
    by_cases hskip : resume = true ∧ url ∈ st.processed
    · rw [if_pos hskip]
      exact ih (idx + 1) st disk (sc + 1) fc calls k hk
    · rw [if_neg hskip]
      cases hoc : oc idx <;> dsimp only
      · exact ih (idx + 1) _ _ (sc + 1) fc (calls ++ [idx]) k hk
      · exact ih (idx + 1) _ _ sc (fc + 1) (calls ++ [idx]) k
          (mem_keys_dictInsert _ _ _ _ hk)
      · exact ih (idx + 1) _ _ sc (fc + 1) (calls ++ [idx]) k
          (mem_keys_dictInsert _ _ _ _ hk)
      · exact hk

/-- C3 counterexample: an exception whose message stringifies to the
empty string (Python `str(Exception())` is `''`) is recorded with an
empty error text, so the recorded error text is not always non-empty
as the claim states. -/
theorem c3_counterexample :
    process_urls (fun _ => Outcome.raiseExc "") (fun _ => "t") false
        ⟨[], []⟩ none [(1, "https://a")]
      = ⟨0, 1, ⟨[], [("https://a", ⟨1, "", "t"⟩)]⟩, none, none, [1]⟩
    ∧ ¬(∀ p ∈ (process_urls (fun _ => Outcome.raiseExc "") (fun _ => "t") false
          ⟨[], []⟩ none [(1, "https://a")]).state.failed,
        (Prod.snd p).error ≠ "") := by
  refine ⟨rfl, ?_⟩
  intro h
  exact h ("https://a", ⟨1, "", "t"⟩) (by decide) rfl

/-- C3 (amended): on an entry whose collaborator call fails or whose
loop body raises, `process_urls` records the URL in the failed map with
its line number, the error text (`'Download failed'` for a returned
failure, the exception's message — possibly empty — for a raised
exception) and a timestamp, increments `failed_count`, and continues
with the remaining entries; the URL stays a key of the failed map
through the rest of the run. -/
theorem c3_amended (oc : Nat → Outcome) (ts : Nat → String) (resume : Bool)
    (idx : Nat) (st : BatchState) (disk : Option ResumeData) (sc fc : Nat)
    (calls : List Nat) (ln : Nat) (url : String) (rest : List (Nat × String))
    (hns : ¬(resume = true ∧ url ∈ st.processed))
    (hf : oc idx = Outcome.failure ∨ ∃ msg, oc idx = Outcome.raiseExc msg) :
    processUrlsFrom oc ts resume idx st disk sc fc calls ((ln, url) :: rest)
      = processUrlsFrom oc ts resume (idx + 1)
          ⟨st.processed, dictInsert st.failed url ⟨ln, (oc idx).errText, ts idx⟩⟩
          (if resume = true then
            some (save_resume_data
              ⟨st.processed, dictInsert st.failed url ⟨ln, (oc idx).errText, ts idx⟩⟩
              (ts idx))
          else disk)
          sc (fc + 1) (calls ++ [idx]) rest
    ∧ url ∈ (processUrlsFrom oc ts resume idx st disk sc fc calls
        ((ln, url) :: rest)).state.failed.map Prod.fst := by
  have hstep : processUrlsFrom oc ts resume idx st disk sc fc calls ((ln, url) :: rest)
      = processUrlsFrom oc ts resume (idx + 1)
          ⟨st.processed, dictInsert st.failed url ⟨ln, (oc idx).errText, ts idx⟩⟩
          (if resume = true then
            some (save_resume_data
              ⟨st.processed, dictInsert st.failed url ⟨ln, (oc idx).errText, ts idx⟩⟩
              (ts idx))
          else disk)
          sc (fc + 1) (calls ++ [idx]) rest := by
    rcases hf with h | ⟨msg, h⟩
    · simp only [processUrlsFrom, if_neg hns, h, Outcome.errText]
    · simp only [processUrlsFrom, if_neg hns, h, Outcome.errText]
  refine ⟨hstep, ?_⟩
  rw [hstep]
  exact failed_keys_mono oc ts resume rest (idx + 1) _ _ sc (fc + 1) (calls ++ [idx])
    url (self_mem_keys_dictInsert _ _ _)

/-- Witness for `c3_amended` at a concrete failing entry. -/
theorem c3_witness :
    (¬(false = true ∧ "https://a" ∈ ([] : List String)))
    ∧ (processUrlsFrom (fun _ => Outcome.failure) (fun _ => "t") false 1
        { processed := [], failed := [] } none 0 0 [] [(1, "https://a")]).failed_count = 1
    ∧ "https://a" ∈ (processUrlsFrom (fun _ => Outcome.failure) (fun _ => "t") false 1
        { processed := [], failed := [] } none 0 0 [] [(1, "https://a")]).state.failed.map
          Prod.fst := by
  have h := c3_amended (fun _ => Outcome.failure) (fun _ => "t") false 1
    { processed := [], failed := [] } none 0 0 [] 1 "https://a" []
    (by simp) (Or.inl rfl)
  exact ⟨by simp, by rw [h.1]; rfl, h.2⟩

/-- C9: the success branch of `process_urls` only adds the URL to the
processed set and leaves the failed map unchanged; every key already in
the failed map is still a key of the final failed map, so a URL that
failed earlier still appears in the final failed-URL report even when
a later download of it succeeds. -/
theorem c9_success_frame (oc : Nat → Outcome) (ts : Nat → String) (resume : Bool)
    (idx : Nat) (st : BatchState) (disk : Option ResumeData) (sc fc : Nat)
    (calls : List Nat) (ln : Nat) (url : String) (rest : List (Nat × String))
    (hns : ¬(resume = true ∧ url ∈ st.processed))
    (hs : oc idx = Outcome.success) :
    processUrlsFrom oc ts resume idx st disk sc fc calls ((ln, url) :: rest)
      = processUrlsFrom oc ts resume (idx + 1)
          { processed := setAdd st.processed url, failed := st.failed }
          (if resume = true then
            some (save_resume_data
              { processed := setAdd st.processed url, failed := st.failed } (ts idx))
          else disk)
          (sc + 1) fc (calls ++ [idx]) rest
    ∧ (∀ k, k ∈ st.failed.map Prod.fst →
        k ∈ (processUrlsFrom oc ts resume idx st disk sc fc calls
          ((ln, url) :: rest)).state.failed.map Prod.fst) := by
  constructor
  · simp only [processUrlsFrom, if_neg hns, hs]
  · intro k hk
    exact failed_keys_mono oc ts resume ((ln, url) :: rest) idx st disk sc fc calls k hk

/-- Witness for `c9_success_frame`: a URL recorded as failed earlier is
downloaded successfully later and still appears among the failed keys. -/
theorem c9_witness :
    (¬(false = true ∧ "https://a" ∈ ([] : List String)))
    ∧ "https://a" ∈ (processUrlsFrom (fun _ => Outcome.success) (fun _ => "t") false 1
        ⟨[], [("https://a", ⟨1, "Download failed", "t0"⟩)]⟩
        none 0 1 [] [(2, "https://a")]).state.failed.map Prod.fst := by
  have h := c9_success_frame (fun _ => Outcome.success) (fun _ => "t") false 1
    ⟨[], [("https://a", ⟨1, "Download failed", "t0"⟩)]⟩
    none 0 1 [] 2 "https://a" [] (by simp) rfl
  exact ⟨by simp, h.2 "https://a" (by decide)⟩

/-- C4 counterexample: with resume mode off, an interrupt after one
successful URL breaks the loop but persists nothing — the accumulated
state (`processed = ["https://a"]`) is not written to disk, so the
claim's unconditional "persists whatever resume state has accumulated
so far to disk" is false; and the handler reports the loop index 2,
not the count (1) of entries remaining unprocessed. -/
theorem c4_counterexample :
    process_urls (fun i => if i = 1 then Outcome.success else Outcome.interrupt)
        (fun _ => "t") false ⟨[], []⟩ none [(1, "https://a"), (2, "https://b")]
      = ⟨1, 0, ⟨["https://a"], []⟩, none, some 2, [1]⟩
    ∧ ¬(∀ u ∈ (process_urls (fun i => if i = 1 then Outcome.success else Outcome.interrupt)
          (fun _ => "t") false ⟨[], []⟩ none
          [(1, "https://a"), (2, "https://b")]).state.processed,
        ∃ d : ResumeData,
          (process_urls (fun i => if i = 1 then Outcome.success else Outcome.interrupt)
            (fun _ => "t") false ⟨[], []⟩ none
            [(1, "https://a"), (2, "https://b")]).disk = some d ∧ u ∈ d.processed)
    ∧ (process_urls (fun i => if i = 1 then Outcome.success else Outcome.interrupt)
        (fun _ => "t") false ⟨[], []⟩ none
        [(1, "https://a"), (2, "https://b")]).interrupted ≠ some 1 := by
  refine ⟨rfl, ?_, by decide⟩
  intro h
  rcases h "https://a" (by decide) with ⟨d, hd, _⟩
  exact Option.noConfusion (show (none : Option ResumeData) = some d from hd)

/-- C4 (amended): a `KeyboardInterrupt` surfacing from the loop body
aborts the remaining loop immediately as a clean break with the tallies
and state accumulated so far; when resume mode is enabled it saves the
accumulated state to disk and reports the 1-based loop index at which
to resume (with resume mode off nothing is persisted); in particular,
after an interrupt following 3 of 5 URLs in a resume-mode run, the
state saved on disk holds exactly those 3 outcomes. -/
theorem c4_amended (oc : Nat → Outcome) (ts : Nat → String) (resume : Bool)
    (idx : Nat) (st : BatchState) (disk : Option ResumeData) (sc fc : Nat)
    (calls : List Nat) (ln : Nat) (url : String) (rest : List (Nat × String))
    (hns : ¬(resume = true ∧ url ∈ st.processed))
    (hint : oc idx = Outcome.interrupt) :
    processUrlsFrom oc ts resume idx st disk sc fc calls ((ln, url) :: rest)
      = ⟨sc, fc, st,
          if resume = true then some (save_resume_data st (ts idx)) else disk,
          some idx, calls⟩ := by
  simp only [processUrlsFrom, if_neg hns, hint]

/-- Witness for `c4_amended`: interrupt at entry 4 of 5 in a
resume-mode run whose first three entries produced two successes and
one failure; the disk afterwards holds exactly those three outcomes. -/
theorem c4_witness :
    (¬(true = true ∧ "https://d" ∈ ["https://a", "https://c"]))
    ∧ processUrlsFrom (fun _ => Outcome.interrupt) (fun _ => "t") true 4
        ⟨["https://a", "https://c"], [("https://b", ⟨2, "Download failed", "t"⟩)]⟩
        (some ⟨["https://a", "https://c"], [("https://b", ⟨2, "Download failed", "t"⟩)], "t"⟩)
        2 1 [1, 2, 3] [(4, "https://d"), (5, "https://e")]
      = ⟨2, 1, ⟨["https://a", "https://c"], [("https://b", ⟨2, "Download failed", "t"⟩)]⟩,
          some ⟨["https://a", "https://c"], [("https://b", ⟨2, "Download failed", "t"⟩)], "t"⟩,
          some 4, [1, 2, 3]⟩ := by
  refine ⟨by decide, ?_⟩
  have h := c4_amended (fun _ => Outcome.interrupt) (fun _ => "t") true 4
    ⟨["https://a", "https://c"], [("https://b", ⟨2, "Download failed", "t"⟩)]⟩
    (some ⟨["https://a", "https://c"], [("https://b", ⟨2, "Download failed", "t"⟩)], "t"⟩)
    2 1 [1, 2, 3] 4 "https://d" [(5, "https://e")] (by decide) rfl
  simpa using h

/-- C5: in resume mode an already-processed URL entry is skipped —
the collaborator is not invoked, the success tally is incremented and
nothing else changes; consequently a run over a list all of whose URLs
are already marked processed makes zero collaborator invocations and
returns `success_count = length` with everything else unchanged. -/
theorem c5_resume_skip :
    (∀ (oc : Nat → Outcome) (ts : Nat → String) (idx : Nat) (st : BatchState)
        (disk : Option ResumeData) (sc fc : Nat) (calls : List Nat)
        (ln : Nat) (url : String) (rest : List (Nat × String)),
        url ∈ st.processed →
        processUrlsFrom oc ts true idx st disk sc fc calls ((ln, url) :: rest)
          = processUrlsFrom oc ts true (idx + 1) st disk (sc + 1) fc calls rest)
    ∧ (∀ (oc : Nat → Outcome) (ts : Nat → String) (st : BatchState)
        (disk : Option ResumeData) (urls : List (Nat × String)),
        (∀ p ∈ urls, p.2 ∈ st.processed) →
        process_urls oc ts true st disk urls
          = ⟨urls.length, 0, st, disk, none, []⟩) := by
  have hstep : ∀ (oc : Nat → Outcome) (ts : Nat → String) (idx : Nat)
      (st : BatchState) (disk : Option ResumeData) (sc fc : Nat) (calls : List Nat)
      (ln : Nat) (url : String) (rest : List (Nat × String)),
      url ∈ st.processed →
      processUrlsFrom oc ts true idx st disk sc fc calls ((ln, url) :: rest)
        = processUrlsFrom oc ts true (idx + 1) st disk (sc + 1) fc calls rest := by
    intro oc ts idx st disk sc fc calls ln url rest h
    simp [processUrlsFrom, h]
  refine ⟨hstep, ?_⟩
  intro oc ts st disk urls
  suffices hgen : ∀ (urls : List (Nat × String)) (idx sc fc : Nat) (calls : List Nat),
      (∀ p ∈ urls, p.2 ∈ st.processed) →
      processUrlsFrom oc ts true idx st disk sc fc calls urls
        = ⟨sc + urls.length, fc, st, disk, none, calls⟩ by
    intro h
    simpa [process_urls] using hgen urls 1 0 0 [] h
  intro urls
  induction urls with
  | nil => intro idx sc fc calls _; simp [processUrlsFrom]
  | cons p rest ih =>
    intro idx sc fc calls h
    obtain ⟨ln, url⟩ := p
    rw [hstep oc ts idx st disk sc fc calls ln url rest (h (ln, url) (by simp)),
      ih (idx + 1) (sc + 1) fc calls (fun q hq => h q (by simp [hq]))]
    have : sc + 1 + rest.length = sc + (rest.length + 1) := by omega
    simp [this]

/-- Witness for `c5_resume_skip`: a two-entry list whose URLs are both
already processed yields zero collaborator calls and two successes,
even though the collaborator would report failure if invoked. -/
theorem c5_witness :
    (∀ p ∈ [(1, "https://a"), (2, "https://b")],
      (Prod.snd p) ∈ ["https://b", "https://a"])
    ∧ process_urls (fun _ => Outcome.failure) (fun _ => "") true
        ⟨["https://b", "https://a"], []⟩ none [(1, "https://a"), (2, "https://b")]
      = ⟨2, 0, ⟨["https://b", "https://a"], []⟩, none, none, []⟩ :=
  ⟨by decide, c5_resume_skip.2 (fun _ => Outcome.failure) (fun _ => "")
    ⟨["https://b", "https://a"], []⟩ none [(1, "https://a"), (2, "https://b")]
    (by decide)⟩

/-- C7: when the filtered input contains no valid URL, `main` exits
with code 1 and no collaborator invocation is attempted. -/
theorem c7_no_valid_urls (lines : List String) (disk0 : Option ResumeData)
    (clear_resume resume : Bool) (oc : Nat → Outcome) (ts : Nat → String)
    (h : (read_urls_from_file lines).urls = []) :
    mainModel lines disk0 clear_resume resume oc ts = ⟨1, [], none⟩ := by
  simp [mainModel, h]

/-- Witness for `c7_no_valid_urls`: an input of a comment line, a blank
line and an invalid line exits with code 1 and makes no calls. -/
theorem c7_witness :
    (read_urls_from_file ["# songs", "", "notaurl"]).urls = []
    ∧ mainModel ["# songs", "", "notaurl"] none false false
        (fun _ => Outcome.success) (fun _ => "") = ⟨1, [], none⟩ :=
  ⟨rfl, c7_no_valid_urls ["# songs", "", "notaurl"] none false false
    (fun _ => Outcome.success) (fun _ => "") rfl⟩

/-- C10: `download_audio` catches a `KeyboardInterrupt` raised inside
the in-flight fetch and returns `False` instead of propagating it, so
the batch loop takes its ordinary failure branch for that URL —
recording it as a per-URL failure — and continues with the remaining
entries instead of breaking out of the loop. -/
theorem c10_interrupt_in_download (oc : Nat → Outcome) (ts : Nat → String)
    (resume : Bool) (idx : Nat) (st : BatchState) (disk : Option ResumeData)
    (sc fc : Nat) (calls : List Nat) (ln : Nat) (url : String)
    (rest : List (Nat × String))
    (hns : ¬(resume = true ∧ url ∈ st.processed))
    (hoc : oc idx = outcomeOfFetch FetchEvent.keyboardInterrupt) :
    download_audio FetchEvent.keyboardInterrupt = false
    ∧ processUrlsFrom oc ts resume idx st disk sc fc calls ((ln, url) :: rest)
      = processUrlsFrom oc ts resume (idx + 1)
          ⟨st.processed, dictInsert st.failed url ⟨ln, "Download failed", ts idx⟩⟩
          (if resume = true then
            some (save_resume_data
              ⟨st.processed, dictInsert st.failed url ⟨ln, "Download failed", ts idx⟩⟩
              (ts idx))
          else disk)
          sc (fc + 1) (calls ++ [idx]) rest := by
  have hoc' : oc idx = Outcome.failure := hoc
  exact ⟨rfl, by simp only [processUrlsFrom, if_neg hns, hoc']⟩

/-- Witness for `c10_interrupt_in_download` at a concrete entry whose
collaborator call is hit by a `KeyboardInterrupt`. -/
theorem c10_witness :
    (¬(false = true ∧ "https://a" ∈ ([] : List String)))
    ∧ download_audio FetchEvent.keyboardInterrupt = false
    ∧ processUrlsFrom (fun _ => outcomeOfFetch FetchEvent.keyboardInterrupt)
        (fun _ => "t") false 1 ⟨[], []⟩ none 0 0 [] [(1, "https://a"), (2, "https://b")]
      = processUrlsFrom (fun _ => outcomeOfFetch FetchEvent.keyboardInterrupt)
          (fun _ => "t") false 2
          ⟨[], dictInsert [] "https://a" ⟨1, "Download failed", "t"⟩⟩
          none 0 1 [1] [(2, "https://b")] := by
  have h := c10_interrupt_in_download
    (fun _ => outcomeOfFetch FetchEvent.keyboardInterrupt) (fun _ => "t") false 1
    ⟨[], []⟩ none 0 0 [] 1 "https://a" [(2, "https://b")] (by simp) rfl
  exact ⟨by simp, h.1, by simpa using h.2⟩

end MusicRip
